import Mathlib

/-
Verification of the SGX announcement scraper (src/setup/sgx_scraper.py).

The scraper walks a paginated listing of announcements, visits each
announcement page, downloads its PDF attachments, deduplicates them
against a persistent download history, a same-announcement name set, the
downloads folder on disk, and a sliding window of recent content hashes,
and stops when either the storage limit is reached or an announcement
dated 2021 or earlier has been seen (finishing the current page first).

Shallow embedding notes:
  - File bytes are abstracted by their content digest (the scraper only
    ever compares SHA256 digests for equality), so an attachment carries
    a digest string and a byte size.
  - The downloads folder is a list of filenames; writing a file appends
    its name, os.remove erases it.
  - The durable history file is the savedDownloads field: save_history
    rewrites it with the current in-memory list, except when the write
    fails (the saveFails flag of the attachment being recorded), in which
    case the scraper only prints a warning and the durable copy is left
    as it was.
  - Network and parsing effects are made explicit: each attachment says
    whether its GET would fail, and each announcement carries the result
    of the best-effort date parse (none models both a missing date
    element and a parse failure, which fall back to the run date).
  - The trace of Events records which URLs were fetched over the network
    and how each attachment was settled.
-/

namespace SGX

/-- Storage limit constant of the scraper: 1 GB in bytes. -/
def STORAGE_LIMIT_BYTES : Nat := 1024 * 1024 * 1024

/-- Sliding window capacity: hashes of the last 50 PDFs are kept. -/
def SLIDING_WINDOW_SIZE : Nat := 50

/-- One entry of download_history.json, as built by add_to_history.
The download_date field is the ISO timestamp datetime.now() produces;
the run models it with the run date string. -/
structure Record where
  pdf_url : String
  filename : String
  announcement_url : String
  announcement_title : String
  download_date : String
  file_size : Nat
  date_from_announcement : String
deriving DecidableEq

/-- One entry of the recent_hashes sliding window. -/
structure HashEntry where
  hash : String
  filename : String
deriving DecidableEq

/-- is_duplicate from the source: scan the history records in order,
for each record checking pdf_url first and then filename; if no record
matches, check whether the file already exists on disk.  Returns the
reason string on a duplicate, none otherwise. -/
def is_duplicate (pdf_url filename : String) :
    List Record → List String → Option String
  | [], disk =>
      if filename ∈ disk then some "File already exists on disk" else none
  | r :: rs, disk =>
      if r.pdf_url = pdf_url then some "URL already in history"
      else if r.filename = filename then some "Filename already in history"
      else is_duplicate pdf_url filename rs disk

/-- add_to_history: append one record to the downloads list. -/
def add_to_history (downloads : List Record)
    (pdf_url filename announcement_url announcement_title date_str : String)
    (now : String) (file_size : Nat) : List Record :=
  downloads ++ [⟨pdf_url, filename, announcement_url, announcement_title,
                now, file_size, date_str⟩]

/-- get_total_storage: sum of the file_size fields of all records. -/
def get_total_storage (downloads : List Record) : Nat :=
  (downloads.map Record.file_size).sum

/-- The sliding window update: append the new entry, then pop the oldest
entry (index 0) when the length exceeds SLIDING_WINDOW_SIZE. -/
def recordHash (recent : List HashEntry) (e : HashEntry) : List HashEntry :=
  let w := recent ++ [e]
  if SLIDING_WINDOW_SIZE < w.length then w.tail else w

/-- One attachment link of an announcement page.  contentHash abstracts
the bytes served at the resolved URL; size is len(response.content).
fetchFails models a requests.get or file write exception; saveFails
models an IOError inside the save_history call that follows a
successful retention of this attachment. -/
structure Attachment where
  pdf_href : String
  pdf_text : String
  contentHash : String
  size : Nat
  fetchFails : Bool
  saveFails : Bool
deriving DecidableEq

/-- Result of the best-effort date parse of an announcement page:
the parsed year together with the formatted date string. -/
structure AnnDate where
  year : Nat
  str : String
deriving DecidableEq

/-- One announcement detail page.  date = none models both a missing
date element and a strptime failure; in either case the scraper falls
back to the run date and performs no year comparison. -/
structure Announcement where
  url : String
  title : String
  date : Option AnnDate
  attachments : List Attachment
deriving DecidableEq

/-- The mutable state of one scraper run.  downloads is the in-memory
history list; savedDownloads is the durable download_history.json copy;
disk lists the filenames present in the downloads folder;
reached_2021 is the stop flag shared by the age boundary and the
storage limit. -/
structure CrawlState where
  downloads : List Record
  savedDownloads : List Record
  disk : List String
  recent_hashes : List HashEntry
  pdf_count : Nat
  skipped_count : Nat
  reached_2021 : Bool
deriving DecidableEq

/-- Observable events of a run.  fetch marks a network GET being issued
for an attachment URL. -/
inductive Event where
  | fetch (url : String)
  | fetchFailed (url : String)
  | retained (filename : String)
  | skippedBatch (filename : String)
  | skippedHist (reason : String)
  | skippedContent (filename matchedName : String)
deriving DecidableEq

/-- URL resolution: a relative href (one that starts with a slash) is
resolved against links.sgx.com. -/
def resolveUrl (pdf_href : String) : String :=
  if pdf_href.data.head? = some '/' then "https://links.sgx.com" ++ pdf_href
  else pdf_href

/-- A character illegal in a file path is replaced by an underscore. -/
def sanitizeChar (c : Char) : Char :=
  if c = '<' ∨ c = '>' ∨ c = ':' ∨ c = '"' ∨ c = '/' ∨ c = '\\' ∨
     c = '|' ∨ c = '?' ∨ c = '*' then '_' else c

/-- Filename sanitization, re.sub of the illegal character class over
every character of the name. -/
def sanitize (s : String) : String := String.mk (s.data.map sanitizeChar)

/-- The last slash-separated segment of a URL: what split by slash and
taking the final piece yields. -/
def lastSegment (s : String) : String :=
  String.mk ((s.data.reverse.takeWhile (fun c => ¬ c = '/')).reverse)

/-- original_filename: the link text when nonempty, else the last
segment of the href. -/
def originalFilename (a : Attachment) : String :=
  if a.pdf_text = "" then lastSegment a.pdf_href
  else a.pdf_text

/-- final_filename: the date string, an underscore, and the sanitized
original name. -/
def finalFilename (date_str : String) (a : Attachment) : String :=
  date_str ++ "_" ++ sanitize (originalFilename a)

/-- The body of the per-attachment loop.  In order: the same-announcement
name check, the is_duplicate check (history then disk), the network GET
and file write, the sliding-window content check (deleting the freshly
written file on a match), and finally retention: append to history,
save the history file, extend the batch set, and update the window. -/
def processAttachment (today date_str announcement_url announcement_title : String)
    (st : CrawlState) (batch : List String) (a : Attachment) :
    CrawlState × List String × List Event :=
  let pdf_url := resolveUrl a.pdf_href
  let final_filename := finalFilename date_str a
  if final_filename ∈ batch then
    ({ st with skipped_count := st.skipped_count + 1 }, batch,
     [Event.skippedBatch final_filename])
  else
    match is_duplicate pdf_url final_filename st.downloads st.disk with
    | some reason =>
        ({ st with skipped_count := st.skipped_count + 1 }, batch,
         [Event.skippedHist reason])
    | none =>
        if a.fetchFails then
          (st, batch, [Event.fetch pdf_url, Event.fetchFailed pdf_url])
        else
          let disk1 := st.disk ++ [final_filename]
          match (st.recent_hashes.filter
                  (fun h => h.hash = a.contentHash)).head? with
          | some m =>
              ({ st with disk := disk1.erase final_filename,
                         skipped_count := st.skipped_count + 1 }, batch,
               [Event.fetch pdf_url,
                Event.skippedContent final_filename m.filename])
          | none =>
              let downloads1 := add_to_history st.downloads pdf_url
                final_filename announcement_url announcement_title
                date_str today a.size
              ({ st with
                   downloads := downloads1,
                   savedDownloads :=
                     if a.saveFails then st.savedDownloads else downloads1,
                   disk := disk1,
                   recent_hashes :=
                     recordHash st.recent_hashes ⟨a.contentHash, final_filename⟩,
                   pdf_count := st.pdf_count + 1 },
               batch ++ [final_filename],
               [Event.fetch pdf_url, Event.retained final_filename])

/-- The loop over the attachments of one announcement, threading the
state and the same-announcement name set. -/
def processAttachments (today date_str announcement_url announcement_title : String) :
    CrawlState → List String → List Attachment →
    CrawlState × List String × List Event
  | st, batch, [] => (st, batch, [])
  | st, batch, a :: rest =>
      let r1 := processAttachment today date_str announcement_url
        announcement_title st batch a
      let r2 := processAttachments today date_str announcement_url
        announcement_title r1.1 r1.2.1 rest
      (r2.1, r2.2.1, r1.2.2 ++ r2.2.2)

/-- Processing one announcement page: pick the date string (falling back
to the run date), set the reached_2021 flag when the parsed year is at
or before 2021, then run the attachment loop with an empty
same-announcement set. -/
def processAnnouncement (today : String) (st : CrawlState)
    (ann : Announcement) : CrawlState × List Event :=
  let date_str := match ann.date with
    | some d => d.str
    | none => today
  let st1 := match ann.date with
    | some d => if d.year ≤ 2021 then { st with reached_2021 := true } else st
    | none => st
  let r := processAttachments today date_str ann.url ann.title st1 []
    ann.attachments
  (r.1, r.2.2)

/-- The inner announcement loop of one page: before each announcement
the storage total is compared against the limit; at or above the limit
the loop breaks with the stop flag set and the remaining announcements
of the page untouched. -/
def processPageAnns (B : Nat) (today : String) :
    CrawlState → List Announcement → CrawlState × List Event
  | st, [] => (st, [])
  | st, ann :: rest =>
      if B ≤ get_total_storage st.downloads then
        ({ st with reached_2021 := true }, [])
      else
        let r1 := processAnnouncement today st ann
        let r2 := processPageAnns B today r1.1 rest
        (r2.1, r1.2 ++ r2.2)

/-- The outer page loop: an empty page means the listing is exhausted
and the loop breaks; after a page the loop stops when the reached_2021
flag was set (by the age boundary or by the storage break). -/
def crawlPages (B : Nat) (today : String) :
    CrawlState → List (List Announcement) → CrawlState × List Event
  | st, [] => (st, [])
  | st, page :: rest =>
      if page.isEmpty then (st, [])
      else
        let r1 := processPageAnns B today st page
        if r1.1.reached_2021 then r1
        else
          let r2 := crawlPages B today r1.1 rest
          (r2.1, r1.2 ++ r2.2)

/-- The run starts from the loaded history (empty when the history file
is absent or corrupt), the current downloads folder contents, and an
empty sliding window. -/
def initState (loaded : List Record) (disk0 : List String) : CrawlState :=
  { downloads := loaded, savedDownloads := loaded, disk := disk0,
    recent_hashes := [], pdf_count := 0, skipped_count := 0,
    reached_2021 := false }

/-- A full scraper run with the 1 GB storage constant. -/
def runScraper (today : String) (loaded : List Record)
    (disk0 : List String) (pages : List (List Announcement)) :
    CrawlState × List Event :=
  crawlPages STORAGE_LIMIT_BYTES today (initState loaded disk0) pages

/-- Reference loop with no storage break: every announcement of the
list is processed.  Used to state that a page is finished to the end. -/
def foldAnns (today : String) :
    CrawlState → List Announcement → CrawlState × List Event
  | st, [] => (st, [])
  | st, ann :: rest =>
      let r1 := processAnnouncement today st ann
      let r2 := foldAnns today r1.1 rest
      (r2.1, r1.2 ++ r2.2)

/-- Total attachment bytes offered by one announcement. -/
def annBytes (ann : Announcement) : Nat :=
  (ann.attachments.map Attachment.size).sum

/-- Pairwise distinctness of both candidate keys of the history. -/
def keysDistinct (ds : List Record) : Prop :=
  ds.Pairwise (fun r s => r.pdf_url ≠ s.pdf_url ∧ r.filename ≠ s.filename)

/-- Whether an event is a network GET. -/
def isFetch : Event → Bool
  | Event.fetch _ => true
  | _ => false

/-- is_duplicate yields no verdict exactly when no history record
matches either key and the file is not on disk. -/
theorem is_duplicate_eq_none_iff (url fn : String) (ds : List Record)
    (disk : List String) :
    is_duplicate url fn ds disk = none ↔
      (∀ r ∈ ds, r.pdf_url ≠ url ∧ r.filename ≠ fn) ∧ fn ∉ disk := by
  induction ds with
  | nil =>
      simp only [is_duplicate]
      split <;> simp_all
  | cons r rs ih =>
      simp only [is_duplicate]
      by_cases h1 : r.pdf_url = url
      · simp [h1]
      · by_cases h2 : r.filename = fn
        · simp [h1, h2]
        · simp only [if_neg h1, if_neg h2, ih]
          constructor
          · rintro ⟨hall, hd⟩
            refine ⟨fun s hs => ?_, hd⟩
            rcases List.mem_cons.mp hs with hs | hs
            · subst hs; exact ⟨h1, h2⟩
            · exact hall s hs
          · rintro ⟨hall, hd⟩
            exact ⟨fun s hs => hall s (List.mem_cons_of_mem _ hs), hd⟩

/-- When no history record matches either key, is_duplicate reduces to
the on-disk check. -/
theorem is_duplicate_of_no_match (url fn : String) (ds : List Record)
    (disk : List String)
    (h : ∀ r ∈ ds, r.pdf_url ≠ url ∧ r.filename ≠ fn) :
    is_duplicate url fn ds disk =
      if fn ∈ disk then some "File already exists on disk" else none := by
  induction ds with
  | nil => rfl
  | cons r rs ih =>
      have hr := h r (List.mem_cons_self r rs)
      simp only [is_duplicate, if_neg hr.1, if_neg hr.2]
      exact ih (fun s hs => h s (List.mem_cons_of_mem _ hs))

/-- When some history record matches one of the keys, is_duplicate
reports one of the two history reasons. -/
theorem is_duplicate_some_of_match (url fn : String) (ds : List Record)
    (disk : List String)
    (h : ∃ r ∈ ds, r.pdf_url = url ∨ r.filename = fn) :
    ∃ s, is_duplicate url fn ds disk = some s ∧
      (s = "URL already in history" ∨ s = "Filename already in history") := by
  induction ds with
  | nil => simp at h
  | cons r rs ih =>
      simp only [is_duplicate]
      by_cases h1 : r.pdf_url = url
      · exact ⟨_, by simp [h1], Or.inl rfl⟩
      · by_cases h2 : r.filename = fn
        · exact ⟨_, by simp [h1, h2], Or.inr rfl⟩
        · rcases h with ⟨s, hs, hmatch⟩
          rcases List.mem_cons.mp hs with hs | hs
          · subst hs
            rcases hmatch with hm | hm
            · exact absurd hm h1
            · exact absurd hm h2
          · simpa [if_neg h1, if_neg h2] using ih ⟨s, hs, hmatch⟩

/-- The window update never grows the window past its capacity. -/
theorem recordHash_length_le (w : List HashEntry) (e : HashEntry)
    (h : w.length ≤ SLIDING_WINDOW_SIZE) :
    (recordHash w e).length ≤ SLIDING_WINDOW_SIZE := by
  simp only [recordHash]
  split
  · simp only [List.length_tail, List.length_append, List.length_cons,
      List.length_nil]
    omega
  · next hgt =>
      simp only [List.length_append, List.length_cons, List.length_nil]
        at hgt ⊢
      omega

/-- At capacity, the window update evicts exactly the oldest entry:
the result is the tail of the old window with the new entry appended. -/
theorem recordHash_eq_of_full (w : List HashEntry) (e : HashEntry)
    (h : w.length = SLIDING_WINDOW_SIZE) :
    recordHash w e = w.tail ++ [e] := by
  cases w with
  | nil => simp [SLIDING_WINDOW_SIZE] at h
  | cons x xs =>
      have hlt : SLIDING_WINDOW_SIZE < xs.length + 1 + 1 := by
        simp only [List.length_cons] at h
        omega
      simp [recordHash, hlt]

/-- Any sequence of window updates keeps the length at capacity. -/
theorem foldl_recordHash_length (es : List HashEntry) (w : List HashEntry)
    (h : w.length ≤ SLIDING_WINDOW_SIZE) :
    (es.foldl recordHash w).length ≤ SLIDING_WINDOW_SIZE := by
  induction es generalizing w with
  | nil => simpa using h
  | cons e es ih =>
      simpa using ih (recordHash w e) (recordHash_length_le w e h)

/-- Appending one record adds exactly its size to the storage total. -/
theorem get_total_storage_append (ds : List Record) (r : Record) :
    get_total_storage (ds ++ [r]) = get_total_storage ds + r.file_size := by
  simp [get_total_storage]

/-- Branch equation: a name already in the same-announcement set is
skipped at once. -/
theorem processAttachment_batch_eq (today date_str annUrl annTitle : String)
    (st : CrawlState) (batch : List String) (a : Attachment)
    (hb : finalFilename date_str a ∈ batch) :
    processAttachment today date_str annUrl annTitle st batch a =
      ({ st with skipped_count := st.skipped_count + 1 }, batch,
       [Event.skippedBatch (finalFilename date_str a)]) := by
  simp only [processAttachment, if_pos hb]

/-- Branch equation: an is_duplicate verdict is skipped at once. -/
theorem processAttachment_dup_eq (today date_str annUrl annTitle : String)
    (st : CrawlState) (batch : List String) (a : Attachment) (reason : String)
    (hb : finalFilename date_str a ∉ batch)
    (hdup : is_duplicate (resolveUrl a.pdf_href) (finalFilename date_str a)
      st.downloads st.disk = some reason) :
    processAttachment today date_str annUrl annTitle st batch a =
      ({ st with skipped_count := st.skipped_count + 1 }, batch,
       [Event.skippedHist reason]) := by
  simp only [processAttachment, if_neg hb, hdup]

/-- Branch equation: a failed GET leaves the state untouched. -/
theorem processAttachment_fetchFail_eq (today date_str annUrl annTitle : String)
    (st : CrawlState) (batch : List String) (a : Attachment)
    (hb : finalFilename date_str a ∉ batch)
    (hdup : is_duplicate (resolveUrl a.pdf_href) (finalFilename date_str a)
      st.downloads st.disk = none)
    (hf : a.fetchFails = true) :
    processAttachment today date_str annUrl annTitle st batch a =
      (st, batch, [Event.fetch (resolveUrl a.pdf_href),
                   Event.fetchFailed (resolveUrl a.pdf_href)]) := by
  simp only [processAttachment, if_neg hb, hdup, hf, if_pos]

/-- Branch equation: a sliding-window content match deletes the freshly
written file and skips. -/
theorem processAttachment_content_eq (today date_str annUrl annTitle : String)
    (st : CrawlState) (batch : List String) (a : Attachment)
    (m : HashEntry) (ms : List HashEntry)
    (hb : finalFilename date_str a ∉ batch)
    (hdup : is_duplicate (resolveUrl a.pdf_href) (finalFilename date_str a)
      st.downloads st.disk = none)
    (hf : a.fetchFails = false)
    (hw : st.recent_hashes.filter (fun h => h.hash = a.contentHash) = m :: ms) :
    processAttachment today date_str annUrl annTitle st batch a =
      ({ st with disk := (st.disk ++ [finalFilename date_str a]).erase
                   (finalFilename date_str a),
                 skipped_count := st.skipped_count + 1 }, batch,
       [Event.fetch (resolveUrl a.pdf_href),
        Event.skippedContent (finalFilename date_str a) m.filename]) := by
  simp only [processAttachment, if_neg hb, hdup, hf, hw, Bool.false_eq_true,
    if_false, List.head?]

/-- Branch equation: a unique attachment is retained, appended to the
history, saved (unless the write fails), added to the batch set, and
its digest recorded in the window. -/
theorem processAttachment_unique_eq (today date_str annUrl annTitle : String)
    (st : CrawlState) (batch : List String) (a : Attachment)
    (hb : finalFilename date_str a ∉ batch)
    (hdup : is_duplicate (resolveUrl a.pdf_href) (finalFilename date_str a)
      st.downloads st.disk = none)
    (hf : a.fetchFails = false)
    (hw : st.recent_hashes.filter (fun h => h.hash = a.contentHash) = []) :
    processAttachment today date_str annUrl annTitle st batch a =
      ({ st with
           downloads := add_to_history st.downloads (resolveUrl a.pdf_href)
             (finalFilename date_str a) annUrl annTitle date_str today a.size,
           savedDownloads :=
             if a.saveFails then st.savedDownloads
             else add_to_history st.downloads (resolveUrl a.pdf_href)
               (finalFilename date_str a) annUrl annTitle date_str today a.size,
           disk := st.disk ++ [finalFilename date_str a],
           recent_hashes := recordHash st.recent_hashes
             ⟨a.contentHash, finalFilename date_str a⟩,
           pdf_count := st.pdf_count + 1 },
       batch ++ [finalFilename date_str a],
       [Event.fetch (resolveUrl a.pdf_href),
        Event.retained (finalFilename date_str a)]) := by
  simp only [processAttachment, if_neg hb, hdup, hf, hw, Bool.false_eq_true,
    if_false, List.head?]

/-- The attachment step never touches the stop flag. -/
theorem processAttachment_reached (today date_str annUrl annTitle : String)
    (st : CrawlState) (batch : List String) (a : Attachment) :
    (processAttachment today date_str annUrl annTitle st batch a).1.reached_2021
      = st.reached_2021 := by
  by_cases hb : finalFilename date_str a ∈ batch
  · rw [processAttachment_batch_eq today date_str annUrl annTitle st batch a hb]
  · cases hdup : is_duplicate (resolveUrl a.pdf_href) (finalFilename date_str a)
        st.downloads st.disk with
    | some reason =>
        rw [processAttachment_dup_eq today date_str annUrl annTitle st batch a
          reason hb hdup]
    | none =>
        cases hf : a.fetchFails with
        | true =>
            rw [processAttachment_fetchFail_eq today date_str annUrl annTitle
              st batch a hb hdup hf]
        | false =>
            cases hw : st.recent_hashes.filter
                (fun h => h.hash = a.contentHash) with
            | cons m ms =>
                rw [processAttachment_content_eq today date_str annUrl annTitle
                  st batch a m ms hb hdup hf hw]
            | nil =>
                rw [processAttachment_unique_eq today date_str annUrl annTitle
                  st batch a hb hdup hf hw]

/-- The attachment step either leaves the history untouched, or appends
exactly one record carrying the resolved URL, the final filename and
the attachment size, and only does so when is_duplicate was clear. -/
theorem processAttachment_downloads_cases
    (today date_str annUrl annTitle : String)
    (st : CrawlState) (batch : List String) (a : Attachment) :
    (processAttachment today date_str annUrl annTitle st batch a).1.downloads
        = st.downloads ∨
    ((processAttachment today date_str annUrl annTitle st batch a).1.downloads
        = st.downloads ++
          [⟨resolveUrl a.pdf_href, finalFilename date_str a, annUrl, annTitle,
            today, a.size, date_str⟩] ∧
     is_duplicate (resolveUrl a.pdf_href) (finalFilename date_str a)
       st.downloads st.disk = none) := by
  by_cases hb : finalFilename date_str a ∈ batch
  · left
    rw [processAttachment_batch_eq today date_str annUrl annTitle st batch a hb]
  · cases hdup : is_duplicate (resolveUrl a.pdf_href) (finalFilename date_str a)
        st.downloads st.disk with
    | some reason =>
        left
        rw [processAttachment_dup_eq today date_str annUrl annTitle st batch a
          reason hb hdup]
    | none =>
        cases hf : a.fetchFails with
        | true =>
            left
            rw [processAttachment_fetchFail_eq today date_str annUrl annTitle
              st batch a hb hdup hf]
        | false =>
            cases hw : st.recent_hashes.filter
                (fun h => h.hash = a.contentHash) with
            | cons m ms =>
                left
                rw [processAttachment_content_eq today date_str annUrl annTitle
                  st batch a m ms hb hdup hf hw]
            | nil =>
                right
                rw [processAttachment_unique_eq today date_str annUrl annTitle
                  st batch a hb hdup hf hw]
                exact ⟨rfl, rfl⟩

/-- The attachment step either leaves the window untouched or records
one digest through the window update. -/
theorem processAttachment_recent_cases
    (today date_str annUrl annTitle : String)
    (st : CrawlState) (batch : List String) (a : Attachment) :
    (processAttachment today date_str annUrl annTitle st batch a).1.recent_hashes
        = st.recent_hashes ∨
    (processAttachment today date_str annUrl annTitle st batch a).1.recent_hashes
        = recordHash st.recent_hashes
            ⟨a.contentHash, finalFilename date_str a⟩ := by
  by_cases hb : finalFilename date_str a ∈ batch
  · left
    rw [processAttachment_batch_eq today date_str annUrl annTitle st batch a hb]
  · cases hdup : is_duplicate (resolveUrl a.pdf_href) (finalFilename date_str a)
        st.downloads st.disk with
    | some reason =>
        left
        rw [processAttachment_dup_eq today date_str annUrl annTitle st batch a
          reason hb hdup]
    | none =>
        cases hf : a.fetchFails with
        | true =>
            left
            rw [processAttachment_fetchFail_eq today date_str annUrl annTitle
              st batch a hb hdup hf]
        | false =>
            cases hw : st.recent_hashes.filter
                (fun h => h.hash = a.contentHash) with
            | cons m ms =>
                left
                rw [processAttachment_content_eq today date_str annUrl annTitle
                  st batch a m ms hb hdup hf hw]
            | nil =>
                right
                rw [processAttachment_unique_eq today date_str annUrl annTitle
                  st batch a hb hdup hf hw]

/-- An append guarded by a clear is_duplicate verdict preserves the
pairwise distinctness of both keys. -/
theorem keysDistinct_append_of_guard (ds : List Record) (disk : List String)
    (r : Record)
    (hguard : is_duplicate r.pdf_url r.filename ds disk = none)
    (h : keysDistinct ds) : keysDistinct (ds ++ [r]) := by
  have hall := ((is_duplicate_eq_none_iff r.pdf_url r.filename ds disk).1
    hguard).1
  refine List.pairwise_append.2 ⟨h, List.pairwise_singleton _ _, ?_⟩
  intro x hx y hy
  rcases List.mem_singleton.mp hy with rfl
  exact ⟨(hall x hx).1, (hall x hx).2⟩

/-- The attachment loop never touches the stop flag. -/
theorem processAttachments_reached (today date_str annUrl annTitle : String)
    (as : List Attachment) (st : CrawlState) (batch : List String) :
    (processAttachments today date_str annUrl annTitle st batch as).1.reached_2021
      = st.reached_2021 := by
  induction as generalizing st batch with
  | nil => rfl
  | cons a rest ih =>
      simp only [processAttachments]
      rw [ih, processAttachment_reached]

/-- The storage total never shrinks across the attachment loop and
grows by at most the total size of the offered attachments. -/
theorem processAttachments_total (today date_str annUrl annTitle : String)
    (as : List Attachment) (st : CrawlState) (batch : List String) :
    get_total_storage st.downloads ≤
      get_total_storage
        (processAttachments today date_str annUrl annTitle st batch as).1.downloads ∧
    get_total_storage
        (processAttachments today date_str annUrl annTitle st batch as).1.downloads ≤
      get_total_storage st.downloads + (as.map Attachment.size).sum := by
  induction as generalizing st batch with
  | nil => simp [processAttachments]
  | cons a rest ih =>
      simp only [processAttachments]
      have hih := ih (processAttachment today date_str annUrl annTitle st batch a).1
        (processAttachment today date_str annUrl annTitle st batch a).2.1
      obtain heq | ⟨heq, -⟩ :=
        processAttachment_downloads_cases today date_str annUrl annTitle st batch a
      · rw [heq] at hih
        simp only [List.map_cons, List.sum_cons]
        omega
      · rw [heq, get_total_storage_append] at hih
        simp only [List.map_cons, List.sum_cons]
        simp only at hih
        omega

/-- The attachment loop preserves the two-key uniqueness invariant. -/
theorem processAttachments_keysDistinct (today date_str annUrl annTitle : String)
    (as : List Attachment) (st : CrawlState) (batch : List String)
    (h : keysDistinct st.downloads) :
    keysDistinct
      (processAttachments today date_str annUrl annTitle st batch as).1.downloads := by
  induction as generalizing st batch with
  | nil => simpa [processAttachments] using h
  | cons a rest ih =>
      simp only [processAttachments]
      apply ih
      obtain heq | ⟨heq, hguard⟩ :=
        processAttachment_downloads_cases today date_str annUrl annTitle st batch a
      · rw [heq]; exact h
      · rw [heq]
        exact keysDistinct_append_of_guard st.downloads st.disk _ hguard h

/-- The attachment loop keeps the sliding window within its capacity. -/
theorem processAttachments_recent_length (today date_str annUrl annTitle : String)
    (as : List Attachment) (st : CrawlState) (batch : List String)
    (h : st.recent_hashes.length ≤ SLIDING_WINDOW_SIZE) :
    (processAttachments today date_str annUrl annTitle st batch as).1.recent_hashes.length
      ≤ SLIDING_WINDOW_SIZE := by
  induction as generalizing st batch with
  | nil => simpa [processAttachments] using h
  | cons a rest ih =>
      simp only [processAttachments]
      apply ih
      obtain heq | heq :=
        processAttachment_recent_cases today date_str annUrl annTitle st batch a
      · rw [heq]; exact h
      · rw [heq]; exact recordHash_length_le _ _ h

/-- Processing one announcement is the attachment loop run from a state
that differs from the incoming one at most in the stop flag. -/
theorem processAnnouncement_shape (today : String) (st : CrawlState)
    (ann : Announcement) :
    ∃ (ds : String) (st1 : CrawlState),
      st1.downloads = st.downloads ∧ st1.disk = st.disk ∧
      st1.recent_hashes = st.recent_hashes ∧
      st1.savedDownloads = st.savedDownloads ∧
      (st.reached_2021 = true → st1.reached_2021 = true) ∧
      (processAnnouncement today st ann).1 =
        (processAttachments today ds ann.url ann.title st1 []
          ann.attachments).1 := by
  cases hd : ann.date with
  | none =>
      exact ⟨today, st, rfl, rfl, rfl, rfl, fun h => h,
        by simp only [processAnnouncement, hd]⟩
  | some d =>
      by_cases hy : d.year ≤ 2021
      · refine ⟨d.str, { st with reached_2021 := true }, rfl, rfl, rfl, rfl,
          fun _ => rfl, ?_⟩
        simp only [processAnnouncement, hd, if_pos hy]
      · refine ⟨d.str, st, rfl, rfl, rfl, rfl, fun h => h, ?_⟩
        simp only [processAnnouncement, hd, if_neg hy]

/-- A true stop flag survives processing an announcement. -/
theorem processAnnouncement_reached_mono (today : String) (st : CrawlState)
    (ann : Announcement) (h : st.reached_2021 = true) :
    (processAnnouncement today st ann).1.reached_2021 = true := by
  obtain ⟨ds, st1, -, -, -, -, hmono, heq⟩ :=
    processAnnouncement_shape today st ann
  rw [heq, processAttachments_reached]
  exact hmono h

/-- An announcement whose parsed year is at or before 2021 sets the
stop flag. -/
theorem processAnnouncement_sets_flag (today : String) (st : CrawlState)
    (ann : Announcement) (d : AnnDate) (hd : ann.date = some d)
    (hy : d.year ≤ 2021) :
    (processAnnouncement today st ann).1.reached_2021 = true := by
  simp only [processAnnouncement, hd, if_pos hy]
  rw [processAttachments_reached]

/-- Storage bounds across one announcement: the total never shrinks and
grows by at most the announcement attachment bytes. -/
theorem processAnnouncement_total (today : String) (st : CrawlState)
    (ann : Announcement) :
    get_total_storage st.downloads ≤
      get_total_storage (processAnnouncement today st ann).1.downloads ∧
    get_total_storage (processAnnouncement today st ann).1.downloads ≤
      get_total_storage st.downloads + annBytes ann := by
  obtain ⟨ds, st1, hdl, -, -, -, -, heq⟩ :=
    processAnnouncement_shape today st ann
  rw [heq]
  have h := processAttachments_total today ds ann.url ann.title
    ann.attachments st1 []
  rw [hdl] at h
  exact h

/-- Processing one announcement preserves the two-key uniqueness. -/
theorem processAnnouncement_keysDistinct (today : String) (st : CrawlState)
    (ann : Announcement) (h : keysDistinct st.downloads) :
    keysDistinct (processAnnouncement today st ann).1.downloads := by
  obtain ⟨ds, st1, hdl, -, -, -, -, heq⟩ :=
    processAnnouncement_shape today st ann
  rw [heq]
  apply processAttachments_keysDistinct
  rw [hdl]
  exact h

/-- Processing one announcement keeps the window within capacity. -/
theorem processAnnouncement_recent_length (today : String) (st : CrawlState)
    (ann : Announcement) (h : st.recent_hashes.length ≤ SLIDING_WINDOW_SIZE) :
    (processAnnouncement today st ann).1.recent_hashes.length
      ≤ SLIDING_WINDOW_SIZE := by
  obtain ⟨ds, st1, -, -, hrh, -, -, heq⟩ :=
    processAnnouncement_shape today st ann
  rw [heq]
  apply processAttachments_recent_length
  rw [hrh]
  exact h

/-- Once the storage total reaches the limit, the announcement loop
stops at once: the state only receives the stop flag and no event, in
particular no network GET, is produced for any pending announcement. -/
theorem processPageAnns_budget_stop (B : Nat) (today : String)
    (st : CrawlState) (ann : Announcement) (rest : List Announcement)
    (h : B ≤ get_total_storage st.downloads) :
    processPageAnns B today st (ann :: rest) =
      ({ st with reached_2021 := true }, []) := by
  simp only [processPageAnns, if_pos h]

/-- Over the budget, the announcement loop emits no events at all. -/
theorem processPageAnns_budget_no_events (B : Nat) (today : String)
    (st : CrawlState) (anns : List Announcement)
    (h : B ≤ get_total_storage st.downloads) :
    (processPageAnns B today st anns).2 = [] := by
  cases anns with
  | nil => rfl
  | cons ann rest => rw [processPageAnns_budget_stop B today st ann rest h]

/-- Over the budget, the page loop emits no events at all: no further
page is processed and no attachment is fetched. -/
theorem crawlPages_budget_no_events (B : Nat) (today : String)
    (st : CrawlState) (pages : List (List Announcement))
    (h : B ≤ get_total_storage st.downloads) :
    (crawlPages B today st pages).2 = [] := by
  cases pages with
  | nil => rfl
  | cons page rest =>
      cases page with
      | nil => rfl
      | cons ann anns =>
          simp only [crawlPages, List.isEmpty_cons, Bool.false_eq_true,
            if_false]
          rw [processPageAnns_budget_stop B today st ann anns h]
          simp

/-- Storage bound for the announcement loop: the final total is at most
the larger of the incoming total and the limit minus one plus the
largest announcement attachment volume. -/
theorem processPageAnns_total_bound (B : Nat) (today : String)
    (anns : List Announcement) (st : CrawlState) (D : Nat)
    (hD : ∀ ann ∈ anns, annBytes ann ≤ D) :
    get_total_storage (processPageAnns B today st anns).1.downloads ≤
      max (get_total_storage st.downloads) (B - 1 + D) := by
  induction anns generalizing st with
  | nil => exact le_max_left _ _
  | cons ann rest ih =>
      simp only [processPageAnns]
      by_cases hb : B ≤ get_total_storage st.downloads
      · simp only [if_pos hb]
        exact le_max_left _ _
      · simp only [if_neg hb]
        have hann := (processAnnouncement_total today st ann).2
        have hannD := hD ann (List.mem_cons_self _ _)
        have h1 : get_total_storage
            (processAnnouncement today st ann).1.downloads ≤ B - 1 + D := by
          omega
        have h2 := ih ((processAnnouncement today st ann).1)
          (fun a ha => hD a (List.mem_cons_of_mem _ ha))
        have h3 : max (get_total_storage
            (processAnnouncement today st ann).1.downloads) (B - 1 + D)
            ≤ B - 1 + D := max_le h1 (le_refl _)
        exact le_trans (le_trans h2 h3) (le_max_right _ _)

/-- The announcement loop preserves the two-key uniqueness. -/
theorem processPageAnns_keysDistinct (B : Nat) (today : String)
    (anns : List Announcement) (st : CrawlState)
    (h : keysDistinct st.downloads) :
    keysDistinct (processPageAnns B today st anns).1.downloads := by
  induction anns generalizing st with
  | nil => exact h
  | cons ann rest ih =>
      simp only [processPageAnns]
      by_cases hb : B ≤ get_total_storage st.downloads
      · simp only [if_pos hb]
        exact h
      · simp only [if_neg hb]
        exact ih _ (processAnnouncement_keysDistinct today st ann h)

/-- The announcement loop keeps the window within capacity. -/
theorem processPageAnns_recent_length (B : Nat) (today : String)
    (anns : List Announcement) (st : CrawlState)
    (h : st.recent_hashes.length ≤ SLIDING_WINDOW_SIZE) :
    (processPageAnns B today st anns).1.recent_hashes.length
      ≤ SLIDING_WINDOW_SIZE := by
  induction anns generalizing st with
  | nil => exact h
  | cons ann rest ih =>
      simp only [processPageAnns]
      by_cases hb : B ≤ get_total_storage st.downloads
      · simp only [if_pos hb]
        exact h
      · simp only [if_neg hb]
        exact ih _ (processAnnouncement_recent_length today st ann h)

/-- The page loop preserves the two-key uniqueness. -/
theorem crawlPages_keysDistinct (B : Nat) (today : String)
    (pages : List (List Announcement)) (st : CrawlState)
    (h : keysDistinct st.downloads) :
    keysDistinct (crawlPages B today st pages).1.downloads := by
  induction pages generalizing st with
  | nil => exact h
  | cons page rest ih =>
      simp only [crawlPages]
      by_cases hp : page.isEmpty
      · simp only [if_pos hp]
        exact h
      · simp only [if_neg hp]
        by_cases hr : (processPageAnns B today st page).1.reached_2021
        · simp only [if_pos hr]
          exact processPageAnns_keysDistinct B today page st h
        · simp only [if_neg hr]
          exact ih _ (processPageAnns_keysDistinct B today page st h)

/-- The page loop keeps the window within capacity. -/
theorem crawlPages_recent_length (B : Nat) (today : String)
    (pages : List (List Announcement)) (st : CrawlState)
    (h : st.recent_hashes.length ≤ SLIDING_WINDOW_SIZE) :
    (crawlPages B today st pages).1.recent_hashes.length
      ≤ SLIDING_WINDOW_SIZE := by
  induction pages generalizing st with
  | nil => exact h
  | cons page rest ih =>
      simp only [crawlPages]
      by_cases hp : page.isEmpty
      · simp only [if_pos hp]
        exact h
      · simp only [if_neg hp]
        by_cases hr : (processPageAnns B today st page).1.reached_2021
        · simp only [if_pos hr]
          exact processPageAnns_recent_length B today page st h
        · simp only [if_neg hr]
          exact ih _ (processPageAnns_recent_length B today page st h)

/-- The page loop storage bound. -/
theorem crawlPages_total_bound (B : Nat) (today : String)
    (pages : List (List Announcement)) (st : CrawlState) (D : Nat)
    (hD : ∀ page ∈ pages, ∀ ann ∈ page, annBytes ann ≤ D) :
    get_total_storage (crawlPages B today st pages).1.downloads ≤
      max (get_total_storage st.downloads) (B - 1 + D) := by
  induction pages generalizing st with
  | nil => exact le_max_left _ _
  | cons page rest ih =>
      simp only [crawlPages]
      by_cases hp : page.isEmpty
      · simp only [if_pos hp]
        exact le_max_left _ _
      · simp only [if_neg hp]
        have hpage := processPageAnns_total_bound B today page st D
          (hD page (List.mem_cons_self _ _))
        by_cases hr : (processPageAnns B today st page).1.reached_2021
        · simp only [if_pos hr]
          exact hpage
        · simp only [if_neg hr]
          have h2 := ih ((processPageAnns B today st page).1)
            (fun p hmem a ha => hD p (List.mem_cons_of_mem _ hmem) a ha)
          exact le_trans h2 (max_le hpage (le_max_right _ _))

/-- The reference loop never shrinks the storage total. -/
theorem foldAnns_total_mono (today : String) (anns : List Announcement)
    (st : CrawlState) :
    get_total_storage st.downloads ≤
      get_total_storage (foldAnns today st anns).1.downloads := by
  induction anns generalizing st with
  | nil => exact le_refl _
  | cons ann rest ih =>
      simp only [foldAnns]
      exact le_trans (processAnnouncement_total today st ann).1
        (ih (processAnnouncement today st ann).1)

/-- A true stop flag survives the reference loop. -/
theorem foldAnns_reached_mono (today : String) (anns : List Announcement)
    (st : CrawlState) (h : st.reached_2021 = true) :
    (foldAnns today st anns).1.reached_2021 = true := by
  induction anns generalizing st with
  | nil => exact h
  | cons ann rest ih =>
      simp only [foldAnns]
      exact ih _ (processAnnouncement_reached_mono today st ann h)

/-- As long as the storage total stays under the limit through the
whole page, the announcement loop of the scraper coincides with the
loop that processes every announcement: the page is not abandoned. -/
theorem processPageAnns_eq_foldAnns (B : Nat) (today : String)
    (anns : List Announcement) (st : CrawlState)
    (h : get_total_storage (foldAnns today st anns).1.downloads < B) :
    processPageAnns B today st anns = foldAnns today st anns := by
  induction anns generalizing st with
  | nil => rfl
  | cons ann rest ih =>
      have hstep : get_total_storage st.downloads <
          get_total_storage (foldAnns today st (ann :: rest)).1.downloads + 1 := by
        have h1 := (processAnnouncement_total today st ann).1
        have h2 := foldAnns_total_mono today rest
          (processAnnouncement today st ann).1
        simp only [foldAnns]
        omega
      have hlt : get_total_storage st.downloads < B := by omega
      simp only [processPageAnns, foldAnns, if_neg (not_le.mpr hlt)]
      rw [ih]
      have h3 : (foldAnns today st (ann :: rest)).1 =
          (foldAnns today (processAnnouncement today st ann).1 rest).1 := by
        simp only [foldAnns]
      rw [← h3]
      exact h

/-- When a nonempty page ends with the stop flag set, the page loop
returns the result of that page and visits no further page. -/
theorem crawlPages_stop_of_flag (B : Nat) (today : String) (st : CrawlState)
    (ann : Announcement) (anns : List Announcement)
    (rest : List (List Announcement))
    (hflag : (processPageAnns B today st (ann :: anns)).1.reached_2021 = true) :
    crawlPages B today st ((ann :: anns) :: rest) =
      processPageAnns B today st (ann :: anns) := by
  simp only [crawlPages, List.isEmpty_cons, Bool.false_eq_true, if_false,
    hflag, if_true]

/-- Claim C2: once the stored total is at or above the storage budget,
the crawl transitions to STOPPED (the stop flag is set with no other
state change) before processing the next announcement, even mid-page;
the rest of the run emits no event at all, so in particular no
attachment of any later announcement or page is fetched. -/
theorem c2_budget_stops_run (B : Nat) (today : String) (st : CrawlState)
    (h : B ≤ get_total_storage st.downloads) :
    (∀ ann rest, processPageAnns B today st (ann :: rest) =
        ({ st with reached_2021 := true }, [])) ∧
    (∀ anns, (processPageAnns B today st anns).2 = []) ∧
    (∀ pages, (crawlPages B today st pages).2 = []) :=
  ⟨fun ann rest => processPageAnns_budget_stop B today st ann rest h,
   fun anns => processPageAnns_budget_no_events B today st anns h,
   fun pages => crawlPages_budget_no_events B today st pages h⟩

def c2rec : Record :=
  ⟨"u", "f", "au", "at", "2025-01-01", 5, "2025-01-01"⟩

def c2st : CrawlState :=
  { downloads := [c2rec], savedDownloads := [c2rec], disk := ["f"],
    recent_hashes := [], pdf_count := 0, skipped_count := 0,
    reached_2021 := false }

def c2ann : Announcement :=
  { url := "U", title := "T", date := none, attachments := [] }

/-- Witness for C2 at a concrete over-budget state. -/
theorem c2_budget_stops_run_witness :
    5 ≤ get_total_storage c2st.downloads ∧
    processPageAnns 5 "2025-01-01" c2st [c2ann] =
      ({ c2st with reached_2021 := true }, []) ∧
    (crawlPages 5 "2025-01-01" c2st [[c2ann]]).2 = [] :=
  ⟨by decide,
   (c2_budget_stops_run 5 "2025-01-01" c2st (by decide)).1 c2ann [],
   (c2_budget_stops_run 5 "2025-01-01" c2st (by decide)).2.2 [[c2ann]]⟩

/-- Claim C5: an append guarded by a clear is_duplicate verdict keeps
the pdf_url values and the filename values of the history pairwise
distinct, and every crawl run preserves this two-key uniqueness of the
History Store. -/
theorem c5_key_uniqueness_preserved :
    (∀ (ds : List Record) (disk : List String) (r : Record),
        is_duplicate r.pdf_url r.filename ds disk = none →
        keysDistinct ds → keysDistinct (ds ++ [r])) ∧
    (∀ (B : Nat) (today : String) (st : CrawlState)
        (pages : List (List Announcement)),
        keysDistinct st.downloads →
        keysDistinct (crawlPages B today st pages).1.downloads) :=
  ⟨fun ds disk r hg h => keysDistinct_append_of_guard ds disk r hg h,
   fun B today st pages h => crawlPages_keysDistinct B today pages st h⟩

def c5att : Attachment :=
  ⟨"/c5/x.pdf", "x.pdf", "hx", 3, false, false⟩

def c5ann : Announcement :=
  { url := "CU", title := "CT", date := none, attachments := [c5att] }

/-- Witness for C5: a concrete run from the empty history. -/
theorem c5_key_uniqueness_preserved_witness :
    keysDistinct
      (crawlPages 100 "2025-01-02" (initState [] []) [[c5ann]]).1.downloads :=
  c5_key_uniqueness_preserved.2 100 "2025-01-02" (initState [] []) [[c5ann]]
    List.Pairwise.nil

/-- Claim C6: an announcement dated at or before 2021 marks the stop
flag, yet the remaining announcements of the current page are all still
processed (the page loop equals the loop with no early exit, provided
the storage limit is not hit during the page), and after the page the
crawl stops instead of advancing to the next page. -/
theorem c6_age_boundary_finishes_page (B : Nat) (today : String)
    (st : CrawlState) (ann : Announcement) (docs : List Announcement)
    (pages : List (List Announcement)) (d : AnnDate)
    (hd : ann.date = some d) (hy : d.year ≤ 2021)
    (hB : get_total_storage (foldAnns today st (ann :: docs)).1.downloads < B) :
    processPageAnns B today st (ann :: docs) = foldAnns today st (ann :: docs) ∧
    (foldAnns today st (ann :: docs)).1.reached_2021 = true ∧
    crawlPages B today st ((ann :: docs) :: pages) =
      foldAnns today st (ann :: docs) := by
  have h1 := processPageAnns_eq_foldAnns B today (ann :: docs) st hB
  have hflag : (foldAnns today st (ann :: docs)).1.reached_2021 = true := by
    have h2 := processAnnouncement_sets_flag today st ann d hd hy
    have h3 := foldAnns_reached_mono today docs
      (processAnnouncement today st ann).1 h2
    simp only [foldAnns]
    exact h3
  refine ⟨h1, hflag, ?_⟩
  rw [crawlPages_stop_of_flag B today st ann docs pages
    (by rw [h1]; exact hflag), h1]

def c6att1 : Attachment := ⟨"/c6/a.pdf", "a.pdf", "ha", 2, false, false⟩

def c6att2 : Attachment := ⟨"/c6/b.pdf", "b.pdf", "hb", 3, false, false⟩

def c6ann1 : Announcement :=
  { url := "BU", title := "BT", date := some ⟨2020, "2020-03-01"⟩,
    attachments := [c6att1] }

def c6ann2 : Announcement :=
  { url := "BU2", title := "BT2", date := some ⟨2022, "2022-03-01"⟩,
    attachments := [c6att2] }

def c6ann3 : Announcement :=
  { url := "BU3", title := "BT3", date := none, attachments := [] }

/-- Witness for C6: a 2020-dated announcement followed by a 2022 one on
the same page, with a further page pending. -/
theorem c6_age_boundary_finishes_page_witness :
    processPageAnns 100 "2025-01-05" (initState [] []) [c6ann1, c6ann2] =
      foldAnns "2025-01-05" (initState [] []) [c6ann1, c6ann2] ∧
    (foldAnns "2025-01-05" (initState [] []) [c6ann1, c6ann2]).1.reached_2021
      = true ∧
    crawlPages 100 "2025-01-05" (initState [] [])
        [[c6ann1, c6ann2], [c6ann3]] =
      foldAnns "2025-01-05" (initState [] []) [c6ann1, c6ann2] :=
  c6_age_boundary_finishes_page 100 "2025-01-05" (initState [] [])
    c6ann1 [c6ann2] [[c6ann3]] ⟨2020, "2020-03-01"⟩ rfl (by decide) (by decide)

/-- Claim C7: one window insertion keeps the length within the capacity
of 50, any sequence of insertions does, insertion at capacity evicts
exactly the oldest entry (FIFO), and every crawl run keeps the window
within capacity. -/
theorem c7_window_capacity_fifo :
    (∀ (w : List HashEntry) (e : HashEntry),
        w.length ≤ SLIDING_WINDOW_SIZE →
        (recordHash w e).length ≤ SLIDING_WINDOW_SIZE) ∧
    (∀ (es w : List HashEntry), w.length ≤ SLIDING_WINDOW_SIZE →
        (es.foldl recordHash w).length ≤ SLIDING_WINDOW_SIZE) ∧
    (∀ (w : List HashEntry) (e : HashEntry),
        w.length = SLIDING_WINDOW_SIZE →
        recordHash w e = w.tail ++ [e]) ∧
    (∀ (B : Nat) (today : String) (st : CrawlState)
        (pages : List (List Announcement)),
        st.recent_hashes.length ≤ SLIDING_WINDOW_SIZE →
        (crawlPages B today st pages).1.recent_hashes.length
          ≤ SLIDING_WINDOW_SIZE) :=
  ⟨recordHash_length_le, foldl_recordHash_length, recordHash_eq_of_full,
   fun B today st pages h => crawlPages_recent_length B today pages st h⟩

/-- Witness for C7 at a full window of 50 entries. -/
theorem c7_window_capacity_fifo_witness :
    (recordHash (List.replicate 50 (⟨"h", "f"⟩ : HashEntry)) ⟨"g", "k"⟩).length
      ≤ SLIDING_WINDOW_SIZE ∧
    recordHash (List.replicate 50 (⟨"h", "f"⟩ : HashEntry)) ⟨"g", "k"⟩ =
      (List.replicate 50 (⟨"h", "f"⟩ : HashEntry)).tail ++ [⟨"g", "k"⟩] :=
  ⟨c7_window_capacity_fifo.1 (List.replicate 50 ⟨"h", "f"⟩) ⟨"g", "k"⟩
     (by decide),
   c7_window_capacity_fifo.2.2.1 (List.replicate 50 ⟨"h", "f"⟩) ⟨"g", "k"⟩
     (by decide)⟩

/-- Claim C9: an attachment judged duplicate by the same-batch name set
or by a History Store key match is skipped with no fetch event, and the
history, the window, the disk, the durable copy and the batch set are
all left unchanged. -/
theorem c9_pretransfer_skip_no_effects
    (today date_str annUrl annTitle : String)
    (st : CrawlState) (batch : List String) (a : Attachment)
    (h : finalFilename date_str a ∈ batch ∨
         ∃ r ∈ st.downloads, r.pdf_url = resolveUrl a.pdf_href ∨
           r.filename = finalFilename date_str a) :
    (processAttachment today date_str annUrl annTitle st batch a).1.downloads
        = st.downloads ∧
    (processAttachment today date_str annUrl annTitle st batch a).1.recent_hashes
        = st.recent_hashes ∧
    (processAttachment today date_str annUrl annTitle st batch a).1.disk
        = st.disk ∧
    (processAttachment today date_str annUrl annTitle st batch a).1.savedDownloads
        = st.savedDownloads ∧
    (processAttachment today date_str annUrl annTitle st batch a).2.1 = batch ∧
    (∀ e ∈ (processAttachment today date_str annUrl annTitle st batch a).2.2,
        isFetch e = false) := by
  by_cases hb : finalFilename date_str a ∈ batch
  · rw [processAttachment_batch_eq today date_str annUrl annTitle st batch a hb]
    refine ⟨rfl, rfl, rfl, rfl, rfl, ?_⟩
    intro e he
    rcases List.mem_singleton.mp he with rfl
    rfl
  · rcases h with h | h
    · exact absurd h hb
    · obtain ⟨s, hs, -⟩ := is_duplicate_some_of_match
        (resolveUrl a.pdf_href) (finalFilename date_str a)
        st.downloads st.disk h
      rw [processAttachment_dup_eq today date_str annUrl annTitle st batch a
        s hb hs]
      refine ⟨rfl, rfl, rfl, rfl, rfl, ?_⟩
      intro e he
      rcases List.mem_singleton.mp he with rfl
      rfl

def c9rec : Record :=
  ⟨"https://links.sgx.com/c9/y.pdf", "2025-01-06_y.pdf", "au", "at",
   "2025-01-06", 4, "2025-01-06"⟩

def c9st : CrawlState :=
  { downloads := [c9rec], savedDownloads := [c9rec],
    disk := ["2025-01-06_y.pdf"], recent_hashes := [], pdf_count := 0,
    skipped_count := 0, reached_2021 := false }

def c9att : Attachment := ⟨"/c9/y.pdf", "y.pdf", "hy", 4, false, false⟩

/-- Witness for C9 at a concrete URL-key duplicate. -/
theorem c9_pretransfer_skip_no_effects_witness :
    (processAttachment "2025-01-06" "2025-01-06" "AU" "AT" c9st [] c9att).1.downloads
        = c9st.downloads ∧
    (processAttachment "2025-01-06" "2025-01-06" "AU" "AT" c9st [] c9att).1.recent_hashes
        = c9st.recent_hashes ∧
    (processAttachment "2025-01-06" "2025-01-06" "AU" "AT" c9st [] c9att).1.disk
        = c9st.disk ∧
    (processAttachment "2025-01-06" "2025-01-06" "AU" "AT" c9st [] c9att).1.savedDownloads
        = c9st.savedDownloads ∧
    (processAttachment "2025-01-06" "2025-01-06" "AU" "AT" c9st [] c9att).2.1
        = [] ∧
    (∀ e ∈ (processAttachment "2025-01-06" "2025-01-06" "AU" "AT" c9st []
        c9att).2.2, isFetch e = false) :=
  c9_pretransfer_skip_no_effects "2025-01-06" "2025-01-06" "AU" "AT" c9st []
    c9att (by decide)

/-- Claim C10: a file already present in the downloads folder makes the
duplicate check skip the attachment before any transfer, even when the
batch set, the history and the window say nothing about it: the result
only bumps the skip counter and reports the on-disk reason, with no
fetch event and no state change. -/
theorem c10_disk_check_skips (today date_str annUrl annTitle : String)
    (st : CrawlState) (batch : List String) (a : Attachment)
    (h1 : finalFilename date_str a ∉ batch)
    (h2 : ∀ r ∈ st.downloads, r.pdf_url ≠ resolveUrl a.pdf_href ∧
        r.filename ≠ finalFilename date_str a)
    (h3 : finalFilename date_str a ∈ st.disk) :
    processAttachment today date_str annUrl annTitle st batch a =
      ({ st with skipped_count := st.skipped_count + 1 }, batch,
       [Event.skippedHist "File already exists on disk"]) := by
  have hdup : is_duplicate (resolveUrl a.pdf_href) (finalFilename date_str a)
      st.downloads st.disk = some "File already exists on disk" := by
    rw [is_duplicate_of_no_match _ _ _ _ h2, if_pos h3]
  exact processAttachment_dup_eq today date_str annUrl annTitle st batch a
    _ h1 hdup

def c10st : CrawlState :=
  { downloads := [], savedDownloads := [], disk := ["2025-01-07_z.pdf"],
    recent_hashes := [], pdf_count := 0, skipped_count := 0,
    reached_2021 := false }

def c10att : Attachment := ⟨"/c10/z.pdf", "z.pdf", "hz", 4, false, false⟩

/-- Witness for C10: empty history and window, file already on disk. -/
theorem c10_disk_check_skips_witness :
    processAttachment "2025-01-07" "2025-01-07" "AU" "AT" c10st [] c10att =
      ({ c10st with skipped_count := 1 }, [],
       [Event.skippedHist "File already exists on disk"]) :=
  c10_disk_check_skips "2025-01-07" "2025-01-07" "AU" "AT" c10st [] c10att
    (by decide) (by decide) (by decide)


def c1st : CrawlState :=
  { downloads := [], savedDownloads := [], disk := ["2025-01-01_report.pdf"],
    recent_hashes := [], pdf_count := 0, skipped_count := 0,
    reached_2021 := false }

def c1att : Attachment := ⟨"/x/report.pdf", "report.pdf", "h1", 4, false, false⟩

/-- Claim C1 counterexample: with the same-announcement set, the
history and the recency window all empty, none of the four checks the
claim lists can match, yet the verdict is a duplicate skip (reason: the
file already exists on disk) and nothing is retained or recorded.  The
dedup decision therefore has a fifth check the claim omits. -/
theorem c1_counterexample :
    c1st.downloads = [] ∧ c1st.recent_hashes = [] ∧
    (processAttachment "2025-01-01" "2025-01-01" "AU" "AT" c1st [] c1att).2.2
      = [Event.skippedHist "File already exists on disk"] ∧
    (processAttachment "2025-01-01" "2025-01-01" "AU" "AT" c1st []
      c1att).1.downloads = [] ∧
    (processAttachment "2025-01-01" "2025-01-01" "AU" "AT" c1st []
      c1att).1.recent_hashes = [] := by decide

/-- Claim C1 as amended: with a working network, the attachment
decision applies five checks in order, first match winning: (1) final
filename in the same-announcement set, (2)/(3) a single ordered scan of
the History Store records testing the resolved URL and then the
filename of each record, (4) the candidate filename already existing in
the downloads folder, (5) the content digest matching the Recency
Window; the verdict is Unique — the attachment is retained, its record
appended and its digest recorded — exactly when none of the five checks
matches. -/
theorem c1_dedup_five_checks (today date_str annUrl annTitle : String)
    (st : CrawlState) (batch : List String) (a : Attachment)
    (hf : a.fetchFails = false) :
    ((processAttachment today date_str annUrl annTitle st batch a).2.2 =
        [Event.fetch (resolveUrl a.pdf_href),
         Event.retained (finalFilename date_str a)] ↔
      (finalFilename date_str a ∉ batch ∧
       (∀ r ∈ st.downloads, r.pdf_url ≠ resolveUrl a.pdf_href ∧
          r.filename ≠ finalFilename date_str a) ∧
       finalFilename date_str a ∉ st.disk ∧
       (∀ h ∈ st.recent_hashes, h.hash ≠ a.contentHash))) ∧
    ((finalFilename date_str a ∉ batch ∧
      (∀ r ∈ st.downloads, r.pdf_url ≠ resolveUrl a.pdf_href ∧
         r.filename ≠ finalFilename date_str a) ∧
      finalFilename date_str a ∉ st.disk ∧
      (∀ h ∈ st.recent_hashes, h.hash ≠ a.contentHash)) →
      (processAttachment today date_str annUrl annTitle st batch a).1.downloads
          = st.downloads ++
            [⟨resolveUrl a.pdf_href, finalFilename date_str a, annUrl,
              annTitle, today, a.size, date_str⟩] ∧
      (processAttachment today date_str annUrl annTitle st batch a).1.recent_hashes
          = recordHash st.recent_hashes
              ⟨a.contentHash, finalFilename date_str a⟩) ∧
    (finalFilename date_str a ∈ batch →
      (processAttachment today date_str annUrl annTitle st batch a).2.2 =
        [Event.skippedBatch (finalFilename date_str a)]) ∧
    (finalFilename date_str a ∉ batch →
      (∃ r ∈ st.downloads, r.pdf_url = resolveUrl a.pdf_href ∨
         r.filename = finalFilename date_str a) →
      ∃ s, (processAttachment today date_str annUrl annTitle st batch a).2.2 =
        [Event.skippedHist s] ∧
        (s = "URL already in history" ∨ s = "Filename already in history")) ∧
    (finalFilename date_str a ∉ batch →
      (∀ r ∈ st.downloads, r.pdf_url ≠ resolveUrl a.pdf_href ∧
         r.filename ≠ finalFilename date_str a) →
      finalFilename date_str a ∈ st.disk →
      (processAttachment today date_str annUrl annTitle st batch a).2.2 =
        [Event.skippedHist "File already exists on disk"]) ∧
    (finalFilename date_str a ∉ batch →
      (∀ r ∈ st.downloads, r.pdf_url ≠ resolveUrl a.pdf_href ∧
         r.filename ≠ finalFilename date_str a) →
      finalFilename date_str a ∉ st.disk →
      (∃ h ∈ st.recent_hashes, h.hash = a.contentHash) →
      ∃ mf, (processAttachment today date_str annUrl annTitle st batch a).2.2 =
        [Event.fetch (resolveUrl a.pdf_href),
         Event.skippedContent (finalFilename date_str a) mf]) := by
  refine ⟨⟨?_, ?_⟩, ?_, ?_, ?_, ?_, ?_⟩
  · -- retained events imply the five checks all clear
    intro hevents
    by_cases hb : finalFilename date_str a ∈ batch
    · rw [processAttachment_batch_eq today date_str annUrl annTitle st batch
        a hb] at hevents
      simp at hevents
    · cases hdup : is_duplicate (resolveUrl a.pdf_href)
          (finalFilename date_str a) st.downloads st.disk with
      | some reason =>
          rw [processAttachment_dup_eq today date_str annUrl annTitle st
            batch a reason hb hdup] at hevents
          simp at hevents
      | none =>
          cases hw : st.recent_hashes.filter
              (fun h => h.hash = a.contentHash) with
          | cons m ms =>
              rw [processAttachment_content_eq today date_str annUrl annTitle
                st batch a m ms hb hdup hf hw] at hevents
              simp at hevents
          | nil =>
              have h5 := (is_duplicate_eq_none_iff (resolveUrl a.pdf_href)
                (finalFilename date_str a) st.downloads st.disk).mp hdup
              refine ⟨hb, h5.1, h5.2, ?_⟩
              intro hh hm
              have h6 := List.filter_eq_nil_iff.mp hw hh hm
              simpa using h6
  · -- the five checks clear imply the retained events
    rintro ⟨h1, h2, h3, h4⟩
    have hdup := (is_duplicate_eq_none_iff (resolveUrl a.pdf_href)
      (finalFilename date_str a) st.downloads st.disk).mpr ⟨h2, h3⟩
    have hw : st.recent_hashes.filter (fun h => h.hash = a.contentHash)
        = [] := by
      refine List.filter_eq_nil_iff.mpr ?_
      intro hh hm
      simpa using h4 hh hm
    rw [processAttachment_unique_eq today date_str annUrl annTitle st batch
      a h1 hdup hf hw]
  · rintro ⟨h1, h2, h3, h4⟩
    have hdup := (is_duplicate_eq_none_iff (resolveUrl a.pdf_href)
      (finalFilename date_str a) st.downloads st.disk).mpr ⟨h2, h3⟩
    have hw : st.recent_hashes.filter (fun h => h.hash = a.contentHash)
        = [] := by
      refine List.filter_eq_nil_iff.mpr ?_
      intro hh hm
      simpa using h4 hh hm
    rw [processAttachment_unique_eq today date_str annUrl annTitle st batch
      a h1 hdup hf hw]
    exact ⟨rfl, rfl⟩
  · intro hb
    rw [processAttachment_batch_eq today date_str annUrl annTitle st batch
      a hb]
  · intro hb hex
    obtain ⟨s, hs, hor⟩ := is_duplicate_some_of_match (resolveUrl a.pdf_href)
      (finalFilename date_str a) st.downloads st.disk hex
    exact ⟨s, by rw [processAttachment_dup_eq today date_str annUrl annTitle
      st batch a s hb hs], hor⟩
  · intro hb h2 h3
    have hdup : is_duplicate (resolveUrl a.pdf_href)
        (finalFilename date_str a) st.downloads st.disk =
        some "File already exists on disk" := by
      rw [is_duplicate_of_no_match _ _ _ _ h2, if_pos h3]
    rw [processAttachment_dup_eq today date_str annUrl annTitle st batch a
      _ hb hdup]
  · intro hb h2 h3 hex
    have hdup := (is_duplicate_eq_none_iff (resolveUrl a.pdf_href)
      (finalFilename date_str a) st.downloads st.disk).mpr ⟨h2, h3⟩
    cases hw : st.recent_hashes.filter (fun h => h.hash = a.contentHash) with
    | nil =>
        obtain ⟨hh, hm, hhash⟩ := hex
        have h6 := List.filter_eq_nil_iff.mp hw hh hm
        simp [hhash] at h6
    | cons m ms =>
        rw [processAttachment_content_eq today date_str annUrl annTitle st
          batch a m ms hb hdup hf hw]
        exact ⟨m.filename, rfl⟩

/-- Witness for the amended C1: the disk-check tier fires concretely. -/
theorem c1_dedup_five_checks_witness :
    (processAttachment "2025-01-01" "2025-01-01" "AU" "AT" c1st [] c1att).2.2
      = [Event.skippedHist "File already exists on disk"] :=
  (c1_dedup_five_checks "2025-01-01" "2025-01-01" "AU" "AT" c1st [] c1att
    rfl).2.2.2.2.1 (by decide) (by decide) (by decide)


def c3att1 : Attachment := ⟨"/p/a1.pdf", "a1.pdf", "k1", 9, false, false⟩

def c3att2 : Attachment := ⟨"/p/a2.pdf", "a2.pdf", "k2", 9, false, false⟩

def c3att3 : Attachment := ⟨"/p/a3.pdf", "a3.pdf", "k3", 9, false, false⟩

def c3ann : Announcement :=
  { url := "PU", title := "PT", date := none,
    attachments := [c3att1, c3att2, c3att3] }

/-- Claim C3 counterexample: budget 10, one announcement with three
unique attachments of 9 bytes each.  The run ends with 27 stored bytes:
it exceeds the budget by 17, more than the size (9) of every single
file of the run, because the budget is only checked between
announcements, not between attachments. -/
theorem c3_counterexample :
    get_total_storage
      (crawlPages 10 "2025-01-03" (initState [] []) [[c3ann]]).1.downloads
      = 27 ∧
    (∀ r ∈ (crawlPages 10 "2025-01-03" (initState [] [])
        [[c3ann]]).1.downloads, r.file_size = 9) ∧
    10 + 9 < 27 := by decide

/-- Claim C3 as amended: the total stored bytes never exceeds the
larger of the initial total and (budget - 1) plus the attachment bytes
of one document — the overshoot is bounded by the attachment volume of
the single in-flight document, not by one file. -/
theorem c3_overshoot_bounded_by_document (B D : Nat) (today : String)
    (st : CrawlState) (pages : List (List Announcement))
    (hD : ∀ page ∈ pages, ∀ ann ∈ page, annBytes ann ≤ D) :
    get_total_storage (crawlPages B today st pages).1.downloads ≤
      max (get_total_storage st.downloads) (B - 1 + D) :=
  crawlPages_total_bound B today pages st D hD

/-- Witness for the amended C3 at the counterexample input. -/
theorem c3_overshoot_bounded_by_document_witness :
    get_total_storage
      (crawlPages 10 "2025-01-03" (initState [] []) [[c3ann]]).1.downloads ≤
      max (get_total_storage (initState [] []).downloads) (10 - 1 + 27) :=
  c3_overshoot_bounded_by_document 10 27 "2025-01-03" (initState [] [])
    [[c3ann]] (by decide)

def c4att1 : Attachment := ⟨"/q/f1.pdf", "f1.pdf", "m1", 5, false, true⟩

def c4att2 : Attachment := ⟨"/q/f2.pdf", "f2.pdf", "m2", 6, false, true⟩

def c4ann : Announcement :=
  { url := "QU", title := "QT", date := none,
    attachments := [c4att1, c4att2] }

/-- Claim C4 counterexample: both retentions fail their durable write,
yet the run continues (the second attachment is fetched and retained
after the first failed save), the records stay in the in-memory history
and the files stay on disk, while the durable copy still holds nothing:
the failure is not escalated, nothing is rolled back, and the
accounting is silently lost. -/
theorem c4_counterexample :
    (crawlPages 1000 "2025-01-04" (initState [] []) [[c4ann]]).2 =
      [Event.fetch "https://links.sgx.com/q/f1.pdf",
       Event.retained "2025-01-04_f1.pdf",
       Event.fetch "https://links.sgx.com/q/f2.pdf",
       Event.retained "2025-01-04_f2.pdf"] ∧
    (crawlPages 1000 "2025-01-04" (initState [] [])
        [[c4ann]]).1.downloads.map Record.filename =
      ["2025-01-04_f1.pdf", "2025-01-04_f2.pdf"] ∧
    (crawlPages 1000 "2025-01-04" (initState [] [])
        [[c4ann]]).1.savedDownloads = [] ∧
    (crawlPages 1000 "2025-01-04" (initState [] [])
        [[c4ann]]).1.disk = ["2025-01-04_f1.pdf", "2025-01-04_f2.pdf"] := by
  decide

/-- Claim C4 as amended: when the durable write of an append fails, the
scraper logs a warning and carries on: the retention happens exactly as
on a successful save — record appended in memory, file kept on disk,
digest recorded — except that the durable copy is left stale. -/
theorem c4_save_failure_warn_continue (today date_str annUrl annTitle : String)
    (st : CrawlState) (batch : List String) (a : Attachment)
    (hb : finalFilename date_str a ∉ batch)
    (hdup : is_duplicate (resolveUrl a.pdf_href) (finalFilename date_str a)
      st.downloads st.disk = none)
    (hf : a.fetchFails = false)
    (hw : st.recent_hashes.filter (fun h => h.hash = a.contentHash) = [])
    (hs : a.saveFails = true) :
    processAttachment today date_str annUrl annTitle st batch a =
      ({ st with
           downloads := add_to_history st.downloads (resolveUrl a.pdf_href)
             (finalFilename date_str a) annUrl annTitle date_str today a.size,
           savedDownloads := st.savedDownloads,
           disk := st.disk ++ [finalFilename date_str a],
           recent_hashes := recordHash st.recent_hashes
             ⟨a.contentHash, finalFilename date_str a⟩,
           pdf_count := st.pdf_count + 1 },
       batch ++ [finalFilename date_str a],
       [Event.fetch (resolveUrl a.pdf_href),
        Event.retained (finalFilename date_str a)]) := by
  rw [processAttachment_unique_eq today date_str annUrl annTitle st batch a
    hb hdup hf hw]
  simp [hs]

/-- Witness for the amended C4 at a concrete failing save. -/
theorem c4_save_failure_warn_continue_witness :
    processAttachment "2025-01-04" "2025-01-04" "QU" "QT" (initState [] [])
        [] c4att1 =
      ({ initState [] [] with
           downloads := add_to_history (initState [] []).downloads
             (resolveUrl c4att1.pdf_href) (finalFilename "2025-01-04" c4att1)
             "QU" "QT" "2025-01-04" "2025-01-04" c4att1.size,
           savedDownloads := (initState [] []).savedDownloads,
           disk := (initState [] []).disk ++
             [finalFilename "2025-01-04" c4att1],
           recent_hashes := recordHash (initState [] []).recent_hashes
             ⟨c4att1.contentHash, finalFilename "2025-01-04" c4att1⟩,
           pdf_count := (initState [] []).pdf_count + 1 },
       [] ++ [finalFilename "2025-01-04" c4att1],
       [Event.fetch (resolveUrl c4att1.pdf_href),
        Event.retained (finalFilename "2025-01-04" c4att1)]) :=
  c4_save_failure_warn_continue "2025-01-04" "2025-01-04" "QU" "QT"
    (initState [] []) [] c4att1 (by decide) (by decide) rfl rfl rfl

def c8att1 : Attachment := ⟨"/f/A.pdf", "A.pdf", "D", 7, false, false⟩

def c8att2 : Attachment := ⟨"/f/A_copy.pdf", "A_copy.pdf", "D", 7, false, false⟩

def c8ann1 : Announcement :=
  { url := "U1", title := "T1", date := some ⟨2024, "2024-11-04"⟩,
    attachments := [c8att1] }

def c8ann2 : Announcement :=
  { url := "U2", title := "T2", date := some ⟨2024, "2024-11-03"⟩,
    attachments := [c8att2] }

/-- Claim C8: two announcements on one page offer identical bytes under
the names A.pdf and A_copy.pdf; exactly one record is retained, the
second attachment ends as a content-duplicate skip, and the freshly
written copy is deleted, so no copy file remains on disk. -/
theorem c8_content_dup_scenario :
    (runScraper "2024-11-05" [] [] [[c8ann1, c8ann2]]).1.downloads.map
        Record.filename = ["2024-11-04_A.pdf"] ∧
    (runScraper "2024-11-05" [] [] [[c8ann1, c8ann2]]).2 =
      [Event.fetch "https://links.sgx.com/f/A.pdf",
       Event.retained "2024-11-04_A.pdf",
       Event.fetch "https://links.sgx.com/f/A_copy.pdf",
       Event.skippedContent "2024-11-03_A_copy.pdf" "2024-11-04_A.pdf"] ∧
    (runScraper "2024-11-05" [] [] [[c8ann1, c8ann2]]).1.disk =
      ["2024-11-04_A.pdf"] ∧
    "2024-11-03_A_copy.pdf" ∉
      (runScraper "2024-11-05" [] [] [[c8ann1, c8ann2]]).1.disk := by decide

end SGX
